import Mathlib

/-!
Verification of the transaction sanitization core (`src/transaction/src/sanitized.rs`).

The development shallowly embeds the data model and the operations of
`SanitizedTransaction` in Lean.  Pubkeys, signatures and hashes are abstracted
to `Nat` / `List Nat`; external capabilities (signature cryptography, message
serialization, the vote classifier, the address loader) are passed as explicit
function parameters, mirroring the narrow interfaces the source consumes.
Functions of the `solana_message` crate that the source calls but whose code is
not part of this repository snapshot are modelled from the specification and
marked as such in their doc comments.
-/

namespace SolanaTx

/-- Public key of an account, abstracted. -/
abbrev Pubkey := Nat

/-- A 64-byte signature, abstracted to a byte list. -/
abbrev Signature := List Nat

/-- A message hash, abstracted. -/
abbrev Hash := Nat

/-- Source `MessageHeader`: the three header counts of a message. -/
structure MessageHeader where
  num_required_signatures : Nat
  num_readonly_signed_accounts : Nat
  num_readonly_unsigned_accounts : Nat
  deriving DecidableEq, Repr

/-- A compiled instruction of a message. -/
structure CompiledInstruction where
  program_id_index : Nat
  accounts : List Nat
  data : List Nat
  deriving DecidableEq, Repr

/-- Source `MessageAddressTableLookup`: a reference into an on-chain address lookup
table: the table account plus writable/readonly index lists. -/
structure MessageAddressTableLookup where
  account_key : Pubkey
  writable_indexes : List Nat
  readonly_indexes : List Nat
  deriving DecidableEq, Repr

/-- Source `legacy::Message`: the wire shape of a legacy message. -/
structure legacy.Message where
  header : MessageHeader
  account_keys : List Pubkey
  recent_blockhash : Hash
  instructions : List CompiledInstruction
  deriving DecidableEq, Repr

/-- Source `v0::Message`: the wire shape of a table-addressed (v0) message; carries
lookup-table references instead of resolved addresses. -/
structure v0.Message where
  header : MessageHeader
  account_keys : List Pubkey
  recent_blockhash : Hash
  instructions : List CompiledInstruction
  address_table_lookups : List MessageAddressTableLookup
  deriving DecidableEq, Repr

/-- Source `LoadedAddresses`: pubkeys resolved from address lookup tables, split by
mutability. -/
structure LoadedAddresses where
  writable : List Pubkey
  readonly : List Pubkey
  deriving DecidableEq, Repr

/-- The error taxonomy produced or propagated by this core (spec §6/§7):
signature failure, account loaded twice, too many account locks,
signature-count mismatch, plus opaque address-resolution failures. -/
inductive TransactionError where
  | SignatureFailure
  | AccountLoadedTwice
  | TooManyAccountLocks
  | SignatureCountMismatch
  | AddressLookupError (code : Nat)
  deriving DecidableEq, Repr

/-- Source `MAX_TX_ACCOUNT_LOCKS`: maximum number of accounts a transaction may lock. -/
def MAX_TX_ACCOUNT_LOCKS : Nat := 128

/-- Modelled from the spec: the per-index effective writability that
`LegacyMessage::new` (crate `solana_message`, not part of this snapshot) bakes
into its writable-account cache — an index is writable iff it lies in the
writable-signed region (`i < num_required_signatures -
num_readonly_signed_accounts`) or in the writable-unsigned region
(`num_required_signatures ≤ i < len - num_readonly_unsigned_accounts`), with
reserved keys overridden to non-writable. -/
def legacyWritableIndex (m : legacy.Message) (reserved : List Pubkey) (i : Nat) : Bool :=
  (decide (i < m.header.num_required_signatures - m.header.num_readonly_signed_accounts)
    || (decide (m.header.num_required_signatures ≤ i)
        && decide (i < m.account_keys.length - m.header.num_readonly_unsigned_accounts)))
  && !(reserved.contains (m.account_keys.getD i 0))

/-- Source `LegacyMessage` (sanitized wrapper of a legacy message): the message plus
the baked per-index writability cache. -/
structure LegacyMessage where
  message : legacy.Message
  is_writable_account_cache : List Bool
  deriving DecidableEq, Repr

/-- Modelled from the spec: `LegacyMessage::new` wraps a legacy message and
bakes the effective writability for every key index, applying reserved-key
overrides. -/
def LegacyMessage.new (message : legacy.Message) (reserved : List Pubkey) : LegacyMessage :=
  { message
    is_writable_account_cache :=
      (List.range message.account_keys.length).map (legacyWritableIndex message reserved) }

/-- Modelled from the spec: per-index effective writability over the combined
key space of a table-addressed message — static keys follow the legacy
positional rule, then the resolved writable lookup addresses are writable and
the resolved readonly ones are not, with reserved keys overridden to
non-writable. -/
def v0WritableIndex (m : v0.Message) (loaded : LoadedAddresses) (reserved : List Pubkey)
    (i : Nat) : Bool :=
  let nstatic := m.account_keys.length
  let combined := m.account_keys ++ loaded.writable ++ loaded.readonly
  (if i < nstatic then
    decide (i < m.header.num_required_signatures - m.header.num_readonly_signed_accounts)
      || (decide (m.header.num_required_signatures ≤ i)
          && decide (i < nstatic - m.header.num_readonly_unsigned_accounts))
   else decide (i < nstatic + loaded.writable.length))
  && !(reserved.contains (combined.getD i 0))

/-- Source `v0::LoadedMessage`: a table-addressed message together with its resolved
`LoadedAddresses` and the baked per-index writability cache. -/
structure v0.LoadedMessage where
  message : v0.Message
  loaded_addresses : LoadedAddresses
  is_writable_account_cache : List Bool
  deriving DecidableEq, Repr

/-- Modelled from the spec: `v0::LoadedMessage::new` wraps a table-addressed
message with its resolved addresses, baking effective writability across the
combined key space with reserved-key overrides applied. -/
def v0.LoadedMessage.new (message : v0.Message) (loaded_addresses : LoadedAddresses)
    (reserved : List Pubkey) : v0.LoadedMessage :=
  { message
    loaded_addresses
    is_writable_account_cache :=
      (List.range (message.account_keys.length + loaded_addresses.writable.length
        + loaded_addresses.readonly.length)).map
        (v0WritableIndex message loaded_addresses reserved) }

/-- Source `SanitizedMessage`: tagged variant over the two sanitized message shapes. -/
inductive SanitizedMessage where
  | Legacy : LegacyMessage → SanitizedMessage
  | V0 : v0.LoadedMessage → SanitizedMessage
  deriving DecidableEq, Repr

/-- Modelled from the spec: the canonical combined account-key list exposed by
`SanitizedMessage::account_keys` — the static keys, then, for a
table-addressed message, the resolved writable lookup addresses, then the
resolved readonly ones, in that fixed order. -/
def SanitizedMessage.account_keys : SanitizedMessage → List Pubkey
  | .Legacy lm => lm.message.account_keys
  | .V0 lm =>
      lm.message.account_keys ++ lm.loaded_addresses.writable ++ lm.loaded_addresses.readonly

/-- Source `SanitizedMessage::header`: the header of the underlying message. -/
def SanitizedMessage.header : SanitizedMessage → MessageHeader
  | .Legacy lm => lm.message.header
  | .V0 lm => lm.message.header

/-- Source `SanitizedMessage::static_account_keys`: the static key list only. -/
def SanitizedMessage.static_account_keys : SanitizedMessage → List Pubkey
  | .Legacy lm => lm.message.account_keys
  | .V0 lm => lm.message.account_keys

/-- Does a key list contain some key twice? -/
def hasDup : List Pubkey → Bool
  | [] => false
  | x :: xs => xs.contains x || hasDup xs

/-- Modelled from the spec: `SanitizedMessage::has_duplicates`, the
duplicate-key predicate over the full combined key list. -/
def SanitizedMessage.has_duplicates (m : SanitizedMessage) : Bool :=
  hasDup m.account_keys

/-- Modelled from the spec: `SanitizedMessage::is_writable` reads the baked
per-index writability cache; out-of-range indexes are not writable. -/
def SanitizedMessage.is_writable (m : SanitizedMessage) (i : Nat) : Bool :=
  match m with
  | .Legacy lm => lm.is_writable_account_cache.getD i false
  | .V0 lm => lm.is_writable_account_cache.getD i false

/-- Modelled from the spec: `SanitizedMessage::num_readonly_accounts`, the
count of keys that are readonly by header position (plus, for a
table-addressed message, the resolved readonly lookup addresses). -/
def SanitizedMessage.num_readonly_accounts (m : SanitizedMessage) : Nat :=
  match m with
  | .Legacy lm =>
      lm.message.header.num_readonly_signed_accounts
        + lm.message.header.num_readonly_unsigned_accounts
  | .V0 lm =>
      lm.message.header.num_readonly_signed_accounts
        + lm.message.header.num_readonly_unsigned_accounts
        + lm.loaded_addresses.readonly.length

/-- Source `VersionedMessage`: the wire-format message, legacy or table-addressed. -/
inductive VersionedMessage where
  | Legacy : legacy.Message → VersionedMessage
  | V0 : v0.Message → VersionedMessage
  deriving DecidableEq, Repr

/-- Source `VersionedTransaction`: the wire shape — signatures plus a versioned
message. -/
structure VersionedTransaction where
  signatures : List Signature
  message : VersionedMessage
  deriving DecidableEq, Repr

/-- Source `SanitizedVersionedMessage`: a versioned message that passed basic
structural sanitization. -/
structure SanitizedVersionedMessage where
  message : VersionedMessage
  deriving DecidableEq, Repr

/-- Source `SanitizedVersionedTransaction`: a versioned transaction that passed basic
structural sanitization. -/
structure SanitizedVersionedTransaction where
  signatures : List Signature
  message : SanitizedVersionedMessage
  deriving DecidableEq, Repr

/-- Header of a versioned message. -/
def VersionedMessage.header : VersionedMessage → MessageHeader
  | .Legacy m => m.header
  | .V0 m => m.header

/-- Static account keys of a versioned message. -/
def VersionedMessage.static_account_keys : VersionedMessage → List Pubkey
  | .Legacy m => m.account_keys
  | .V0 m => m.account_keys

/-- Modelled from the spec: `SanitizedVersionedTransaction::try_from`
(crate file `versioned/sanitized.rs`, not part of this snapshot) performs the
basic structural sanitization: signature/key-count consistency at the wire
level — the signature count equals `num_required_signatures`, which is at
least 1 and no larger than the static key count; failure is a sanitize
error. -/
def SanitizedVersionedTransaction.try_from (tx : VersionedTransaction) :
    Except TransactionError SanitizedVersionedTransaction :=
  let nreq := tx.message.header.num_required_signatures
  if tx.signatures.length = nreq ∧ 1 ≤ nreq
      ∧ nreq ≤ tx.message.static_account_keys.length then
    .ok { signatures := tx.signatures, message := { message := tx.message } }
  else
    .error .SignatureCountMismatch

/-- Modelled from the spec: `VersionedTransaction::sanitize_signatures_inner`
(crate file `versioned.rs`, not part of this snapshot) re-checks that the
signature count equals `num_required_signatures` exactly, treating too-few or
too-many as the signature-count-mismatch sanitize failure.  The source also
receives the static account-key count; spec §4.3 assigns it no role in this
recheck, so it is an ignored parameter here. -/
def sanitize_signatures_inner (num_required_signatures num_static_account_keys
    num_signatures : Nat) : Except TransactionError Unit :=
  if num_signatures = num_required_signatures then
    .ok ()
  else
    .error .SignatureCountMismatch

/-- Source `MessageHash`: whether the message hash is precomputed or to be computed. -/
inductive MessageHash where
  | Precomputed : Hash → MessageHash
  | Compute : MessageHash

/-- Source `SanitizedTransaction`: sanitized message, its hash, the vote flag and the
signature list. -/
structure SanitizedTransaction where
  message : SanitizedMessage
  message_hash : Hash
  is_simple_vote_tx : Bool
  signatures : List Signature
  deriving DecidableEq, Repr

/-- Source `TransactionAccountLocks`: readonly and writable account-key lock lists. -/
structure TransactionAccountLocks where
  readonly : List Pubkey
  writable : List Pubkey
  deriving DecidableEq, Repr

/-- Source `SanitizedTransaction::try_new`: build a sanitized transaction from a
sanitized versioned transaction, resolving lookup-table addresses for a
table-addressed message through the injected address loader.  The loader is an
explicit function parameter, mirroring the `AddressLoader` capability. -/
def SanitizedTransaction.try_new
    (tx : SanitizedVersionedTransaction) (message_hash : Hash)
    (is_simple_vote_tx : Bool)
    (address_loader : List MessageAddressTableLookup → Except TransactionError LoadedAddresses)
    (reserved_account_keys : List Pubkey) :
    Except TransactionError SanitizedTransaction :=
  let signatures := tx.signatures
  match tx.message.message with
  | VersionedMessage.Legacy message =>
      .ok { message := SanitizedMessage.Legacy (LegacyMessage.new message reserved_account_keys)
            message_hash, is_simple_vote_tx, signatures }
  | VersionedMessage.V0 message =>
      match address_loader message.address_table_lookups with
      | .error e => .error e
      | .ok loaded_addresses =>
          .ok { message := SanitizedMessage.V0
                  (v0.LoadedMessage.new message loaded_addresses reserved_account_keys)
                message_hash, is_simple_vote_tx, signatures }

/-- Source `SanitizedTransaction::try_create`: build from an un-sanitized versioned
transaction — structural sanitize, fall back to the external vote classifier
when no flag is supplied, compute the hash if requested, then delegate to
`try_new`.  The vote classifier and the hash function are explicit function
parameters, mirroring the external capabilities of spec §6. -/
def SanitizedTransaction.try_create
    (vote_classifier : SanitizedVersionedTransaction → Bool)
    (hash_fn : VersionedMessage → Hash)
    (tx : VersionedTransaction) (message_hash : MessageHash)
    (is_simple_vote_tx : Option Bool)
    (address_loader : List MessageAddressTableLookup → Except TransactionError LoadedAddresses)
    (reserved_account_keys : List Pubkey) :
    Except TransactionError SanitizedTransaction :=
  match SanitizedVersionedTransaction.try_from tx with
  | .error e => .error e
  | .ok sanitized_versioned_tx =>
      let is_simple_vote_tx :=
        is_simple_vote_tx.getD (vote_classifier sanitized_versioned_tx)
      let message_hash :=
        match message_hash with
        | MessageHash.Compute => hash_fn sanitized_versioned_tx.message.message
        | MessageHash.Precomputed h => h
      SanitizedTransaction.try_new sanitized_versioned_tx message_hash is_simple_vote_tx
        address_loader reserved_account_keys

/-- Source `SanitizedTransaction::try_new_from_fields`: build from pre-built fields,
performing only the basic signature sanitization recheck. -/
def SanitizedTransaction.try_new_from_fields
    (message : SanitizedMessage) (message_hash : Hash) (is_simple_vote_tx : Bool)
    (signatures : List Signature) : Except TransactionError SanitizedTransaction :=
  match sanitize_signatures_inner
      message.header.num_required_signatures
      message.static_account_keys.length
      signatures.length with
  | .error e => .error e
  | .ok _ => .ok { message, message_hash, signatures, is_simple_vote_tx }

/-- Source `SanitizedTransaction::signature`: the first signature.  The source indexes
`self.signatures[0]`, a fallible access modelled with `Option`. -/
def SanitizedTransaction.signature (tx : SanitizedTransaction) : Option Signature :=
  tx.signatures[0]?

/-- Source `SanitizedTransaction::is_simple_vote_transaction`. -/
def SanitizedTransaction.is_simple_vote_transaction (tx : SanitizedTransaction) : Bool :=
  tx.is_simple_vote_tx

/-- Source `SanitizedTransaction::to_versioned_transaction`: reconstruct the wire
shape — the signatures plus the stored original message (for a table-addressed
message, the lookup references; resolved addresses are not serialized). -/
def SanitizedTransaction.to_versioned_transaction (tx : SanitizedTransaction) :
    VersionedTransaction :=
  let signatures := tx.signatures
  match tx.message with
  | SanitizedMessage.V0 sanitized_msg =>
      { signatures, message := VersionedMessage.V0 sanitized_msg.message }
  | SanitizedMessage.Legacy legacy_message =>
      { signatures, message := VersionedMessage.Legacy legacy_message.message }

/-- Source `SanitizedTransaction::get_account_locks_unchecked`: scan the combined key
list and push each key into the writable or the readonly lock list according
to the message's per-index writability. -/
def SanitizedTransaction.get_account_locks_unchecked (tx : SanitizedTransaction) :
    TransactionAccountLocks :=
  let message := tx.message
  let account_keys := message.account_keys
  account_keys.enum.foldl
    (fun account_locks ik =>
      if message.is_writable ik.1 then
        { account_locks with writable := account_locks.writable ++ [ik.2] }
      else
        { account_locks with readonly := account_locks.readonly ++ [ik.2] })
    { writable := [], readonly := [] }

/-- Source `SanitizedTransaction::validate_account_locks`: duplicate check first, then
the lock-count ceiling. -/
def SanitizedTransaction.validate_account_locks (message : SanitizedMessage)
    (tx_account_lock_limit : Nat) : Except TransactionError Unit :=
  if message.has_duplicates then
    .error .AccountLoadedTwice
  else if message.account_keys.length > tx_account_lock_limit then
    .error .TooManyAccountLocks
  else
    .ok ()

/-- Source `SanitizedTransaction::get_account_locks`: validate, then partition. -/
def SanitizedTransaction.get_account_locks (tx : SanitizedTransaction)
    (tx_account_lock_limit : Nat) : Except TransactionError TransactionAccountLocks :=
  match SanitizedTransaction.validate_account_locks tx.message tx_account_lock_limit with
  | .error e => .error e
  | .ok _ => .ok tx.get_account_locks_unchecked

/-- Source `SanitizedTransaction::message_data`: the canonical serialized message
bytes to sign.  Serialization is an external primitive; the two serializers
are explicit function parameters. -/
def SanitizedTransaction.message_data
    (serialize_legacy : legacy.Message → List Nat)
    (serialize_v0 : v0.Message → List Nat)
    (tx : SanitizedTransaction) : List Nat :=
  match tx.message with
  | SanitizedMessage.Legacy legacy_message => serialize_legacy legacy_message.message
  | SanitizedMessage.V0 loaded_msg => serialize_v0 loaded_msg.message

/-- Source `SanitizedTransaction::verify`: zip the signatures with the combined
account keys and check each pair against the canonical message bytes; any
failing pair yields the signature-failure error.  The cryptographic primitive
`Signature::verify` is an explicit function parameter. -/
def SanitizedTransaction.verify
    (sig_verify : Signature → Pubkey → List Nat → Bool)
    (serialize_legacy : legacy.Message → List Nat)
    (serialize_v0 : v0.Message → List Nat)
    (tx : SanitizedTransaction) : Except TransactionError Unit :=
  let message_bytes := tx.message_data serialize_legacy serialize_v0
  if (tx.signatures.zip tx.message.account_keys).any
      (fun p => !(sig_verify p.1 p.2 message_bytes)) then
    .error .SignatureFailure
  else
    .ok ()

/-! ## Helper lemmas -/

/-- The predicate `hasDup` decides the negation of `Nodup` on the key list. -/
theorem hasDup_eq_false_iff (l : List Pubkey) : hasDup l = false ↔ l.Nodup := by
  induction l with
  | nil => simp [hasDup]
  | cons x xs ih =>
      simp [hasDup, List.nodup_cons, ih]

/-- A message has duplicates exactly when the combined key list is not
`Nodup`. -/
theorem has_duplicates_iff (m : SanitizedMessage) :
    m.has_duplicates = true ↔ ¬ m.account_keys.Nodup := by
  rw [SanitizedMessage.has_duplicates]
  rw [← hasDup_eq_false_iff m.account_keys]
  cases hasDup m.account_keys <;> simp

/-- A legacy sanitized message over the given key list, with a minimal header;
used for concrete lock-validation instances. -/
def legacyMsgOfKeys (keys : List Pubkey) : SanitizedMessage :=
  SanitizedMessage.Legacy (LegacyMessage.new
    { header :=
        { num_required_signatures := 1
          num_readonly_signed_accounts := 0
          num_readonly_unsigned_accounts := 0 }
      account_keys := keys
      recent_blockhash := 0
      instructions := [] } [])

/-! ## Claims -/

/-- C2: for every sanitized message and every lock limit,
`validate_account_locks` fails with the account-loaded-twice error if and only
if the combined account-key list contains a repeated key (is not `Nodup`),
regardless of where the repetition occurs. -/
theorem validate_account_locks_loaded_twice_iff
    (m : SanitizedMessage) (limit : Nat) :
    SanitizedTransaction.validate_account_locks m limit
      = .error .AccountLoadedTwice ↔ ¬ m.account_keys.Nodup := by
  have hdup := has_duplicates_iff m
  rw [SanitizedTransaction.validate_account_locks]
  split_ifs with h1 h2 <;> simp_all

set_option maxRecDepth 100000 in
/-- C3: `validate_account_locks` fails with the too-many-account-locks error
exactly when the message has no duplicate keys and the combined key count
exceeds the limit (the duplicate check is applied before the limit check, so a
duplicated message yields the account-loaded-twice error instead); at the
boundary, with limit `MAX_TX_ACCOUNT_LOCKS = 128` a message of exactly 128
unique keys passes validation and one of 129 unique keys fails. -/
theorem validate_account_locks_limit :
    (∀ (m : SanitizedMessage) (limit : Nat),
        SanitizedTransaction.validate_account_locks m limit
            = .error .TooManyAccountLocks
          ↔ (m.has_duplicates = false ∧ m.account_keys.length > limit))
    ∧ (∀ (m : SanitizedMessage) (limit : Nat),
        SanitizedTransaction.validate_account_locks m limit
            = .error .AccountLoadedTwice
          ↔ m.has_duplicates = true)
    ∧ SanitizedTransaction.validate_account_locks
        (legacyMsgOfKeys (List.range 128)) MAX_TX_ACCOUNT_LOCKS = .ok ()
    ∧ SanitizedTransaction.validate_account_locks
        (legacyMsgOfKeys (List.range 129)) MAX_TX_ACCOUNT_LOCKS
        = .error .TooManyAccountLocks := by
  refine ⟨fun m limit => ?_, fun m limit => ?_, rfl, rfl⟩
  · rw [SanitizedTransaction.validate_account_locks]
    split_ifs with h1 h2 <;> simp_all
  · rw [SanitizedTransaction.validate_account_locks]
    split_ifs with h1 h2 <;> simp_all

/-- C4: for every sanitized message whose header requires `N` signatures,
`try_new_from_fields` succeeds on a signature list of length exactly `N` and
fails with the signature-count-mismatch sanitize error on lists of length
`N - 1` or `N + 1`, independent of how the message was produced. -/
theorem try_new_from_fields_signature_count
    (message : SanitizedMessage) (h : Hash) (v : Bool) :
    (∀ sigs : List Signature,
        sigs.length = message.header.num_required_signatures →
        SanitizedTransaction.try_new_from_fields message h v sigs
          = .ok { message, message_hash := h, is_simple_vote_tx := v,
                  signatures := sigs })
    ∧ (∀ sigs : List Signature,
        sigs.length + 1 = message.header.num_required_signatures
          ∨ sigs.length = message.header.num_required_signatures + 1 →
        SanitizedTransaction.try_new_from_fields message h v sigs
          = .error .SignatureCountMismatch) := by
  constructor
  · intro sigs hlen
    simp [SanitizedTransaction.try_new_from_fields, sanitize_signatures_inner, hlen]
  · intro sigs hlen
    have hne : sigs.length ≠ message.header.num_required_signatures := by omega
    simp [SanitizedTransaction.try_new_from_fields, sanitize_signatures_inner, hne]

/-- Witness for C4 at a concrete two-key legacy message requiring one
signature: one signature succeeds, zero or two signatures fail. -/
theorem try_new_from_fields_signature_count_witness :
    SanitizedTransaction.try_new_from_fields (legacyMsgOfKeys [10, 20]) 7 false [[1]]
        = .ok { message := legacyMsgOfKeys [10, 20], message_hash := 7,
                is_simple_vote_tx := false, signatures := [[1]] }
    ∧ SanitizedTransaction.try_new_from_fields (legacyMsgOfKeys [10, 20]) 7 false []
        = .error .SignatureCountMismatch
    ∧ SanitizedTransaction.try_new_from_fields (legacyMsgOfKeys [10, 20]) 7 false
        [[1], [2]] = .error .SignatureCountMismatch :=
  ⟨(try_new_from_fields_signature_count (legacyMsgOfKeys [10, 20]) 7 false).1
      [[1]] (by rfl),
   (try_new_from_fields_signature_count (legacyMsgOfKeys [10, 20]) 7 false).2
      [] (Or.inl (by rfl)),
   (try_new_from_fields_signature_count (legacyMsgOfKeys [10, 20]) 7 false).2
      [[1], [2]] (Or.inr (by rfl))⟩

/-- The lock-partition fold: running the writable/readonly push loop from any
accumulator appends, in order, the writable-filtered and readonly-filtered
projections of the scanned (index, key) list. -/
theorem locks_foldl_spec (m : SanitizedMessage) (l : List (Nat × Pubkey)) :
    ∀ acc : TransactionAccountLocks,
      (l.foldl
        (fun account_locks ik =>
          if m.is_writable ik.1 then
            { account_locks with writable := account_locks.writable ++ [ik.2] }
          else
            { account_locks with readonly := account_locks.readonly ++ [ik.2] })
        acc)
      = { writable := acc.writable ++ (l.filter (fun ik => m.is_writable ik.1)).map Prod.snd,
          readonly :=
            acc.readonly ++ (l.filter (fun ik => !(m.is_writable ik.1))).map Prod.snd } := by
  induction l with
  | nil => intro acc; simp
  | cons p l ih =>
      intro acc
      by_cases hw : m.is_writable p.1 <;>
        simp [hw, ih, List.filter_cons, List.append_assoc]

/-- Filtering a list by a predicate and by its negation splits its length. -/
theorem length_filter_add_length_filter_not {α : Type} (p : α → Bool)
    (l : List α) :
    (l.filter p).length + (l.filter (fun a => !(p a))).length = l.length := by
  induction l with
  | nil => simp
  | cons x l ih =>
      by_cases hx : p x <;> simp [List.filter_cons, hx] <;> omega

/-- C5: `get_account_locks_unchecked` partitions the combined account-key
list — the writable list is exactly the keys at indexes the message reports
writable, the readonly list exactly the others (each key lands in exactly one
list), and the two lengths sum to the total key count. -/
theorem get_account_locks_unchecked_partitions (tx : SanitizedTransaction) :
    tx.get_account_locks_unchecked.writable
        = (tx.message.account_keys.enum.filter
            (fun ik => tx.message.is_writable ik.1)).map Prod.snd
    ∧ tx.get_account_locks_unchecked.readonly
        = (tx.message.account_keys.enum.filter
            (fun ik => !(tx.message.is_writable ik.1))).map Prod.snd
    ∧ tx.get_account_locks_unchecked.writable.length
        + tx.get_account_locks_unchecked.readonly.length
        = tx.message.account_keys.length := by
  have h := locks_foldl_spec tx.message tx.message.account_keys.enum
    { writable := [], readonly := [] }
  have hw : tx.get_account_locks_unchecked.writable
      = (tx.message.account_keys.enum.filter
          (fun ik => tx.message.is_writable ik.1)).map Prod.snd := by
    rw [SanitizedTransaction.get_account_locks_unchecked, h]
    simp
  have hr : tx.get_account_locks_unchecked.readonly
      = (tx.message.account_keys.enum.filter
          (fun ik => !(tx.message.is_writable ik.1))).map Prod.snd := by
    rw [SanitizedTransaction.get_account_locks_unchecked, h]
    simp
  refine ⟨hw, hr, ?_⟩
  rw [hw, hr]
  simp only [List.length_map]
  rw [length_filter_add_length_filter_not]
  exact tx.message.account_keys.enum_length

/-- The pair scan of `verify`: the zipped signature/key list has no failing
pair exactly when every position below the zip length (the minimum of the two
lengths) passes the check. -/
theorem any_zip_eq_false_iff (f : Signature → Pubkey → List Nat → Bool)
    (bytes : List Nat) :
    ∀ (ss : List Signature) (ks : List Pubkey),
      ((ss.zip ks).any (fun p => !(f p.1 p.2 bytes)) = false) ↔
      ∀ i, i < min ss.length ks.length → f (ss.getD i []) (ks.getD i 0) bytes = true := by
  intro ss
  induction ss with
  | nil => intro ks; simp
  | cons s ss ih =>
      intro ks
      cases ks with
      | nil => simp
      | cons k ks =>
          simp only [List.zip_cons_cons, List.any_cons, Bool.or_eq_false_iff,
            List.length_cons, ih ks]
          constructor
          · rintro ⟨h1, h2⟩ i hi
            cases i with
            | zero =>
                simp only [List.getD_cons_zero]
                revert h1
                cases f s k bytes <;> simp
            | succ j =>
                simp only [List.getD_cons_succ]
                exact h2 j (by omega)
          · intro hall
            constructor
            · have h0 := hall 0 (by omega)
              simp only [List.getD_cons_zero] at h0
              simp [h0]
            · intro j hj
              have hj1 := hall (j + 1) (by omega)
              simpa using hj1

/-- Function `verify` succeeds exactly when every zipped signature/key pair passes the
check against the canonical message bytes, and its only failure outcome is the
signature-failure error. -/
theorem verify_any_characterization
    (sv : Signature → Pubkey → List Nat → Bool)
    (sl : legacy.Message → List Nat) (s0 : v0.Message → List Nat)
    (tx : SanitizedTransaction) :
    (tx.verify sv sl s0 = .ok () ↔
      ∀ i, i < min tx.signatures.length tx.message.account_keys.length →
        sv (tx.signatures.getD i []) (tx.message.account_keys.getD i 0)
          (tx.message_data sl s0) = true)
    ∧ (tx.verify sv sl s0 = .ok () ∨ tx.verify sv sl s0 = .error .SignatureFailure) := by
  have hz := any_zip_eq_false_iff sv (tx.message_data sl s0)
    tx.signatures tx.message.account_keys
  rw [SanitizedTransaction.verify]
  split_ifs with hc
  · rw [hc] at hz
    refine ⟨⟨fun habs => absurd habs (by simp), fun hall => ?_⟩, Or.inr rfl⟩
    exact absurd (hz.mpr hall) (by simp)
  · have hfalse : (tx.signatures.zip tx.message.account_keys).any
        (fun p => !(sv p.1 p.2 (tx.message_data sl s0))) = false := by
      cases hx : (tx.signatures.zip tx.message.account_keys).any
          (fun p => !(sv p.1 p.2 (tx.message_data sl s0)))
      · rfl
      · exact absurd hx hc
    rw [hfalse] at hz
    constructor
    · simpa using hz
    · exact Or.inl rfl

/-- C1: for every sanitized transaction satisfying the construction invariant
(`signatures.len() = num_required_signatures ≤` combined key count), `verify`
succeeds if and only if, for every `i` below `num_required_signatures`,
`signatures[i]` is a valid signature over the canonical serialized message
bytes under `account_keys()[i]`; when any checked pair fails, `verify` returns
the signature-failure error. -/
theorem verify_ok_iff_all_required
    (sv : Signature → Pubkey → List Nat → Bool)
    (sl : legacy.Message → List Nat) (s0 : v0.Message → List Nat)
    (tx : SanitizedTransaction)
    (hlen : tx.signatures.length = tx.message.header.num_required_signatures)
    (hle : tx.message.header.num_required_signatures
      ≤ tx.message.account_keys.length) :
    (tx.verify sv sl s0 = .ok () ↔
      ∀ i, i < tx.message.header.num_required_signatures →
        sv (tx.signatures.getD i []) (tx.message.account_keys.getD i 0)
          (tx.message_data sl s0) = true)
    ∧ (tx.verify sv sl s0 ≠ .ok () →
        tx.verify sv sl s0 = .error .SignatureFailure) := by
  obtain ⟨h1, h2⟩ := verify_any_characterization sv sl s0 tx
  have hmin : min tx.signatures.length tx.message.account_keys.length
      = tx.message.header.num_required_signatures := by omega
  rw [hmin] at h1
  exact ⟨h1, fun hne => h2.resolve_left hne⟩

/-- Witness for C1: a concrete one-signature transaction under an
always-accepting signature primitive verifies. -/
theorem verify_ok_iff_all_required_witness :
    SanitizedTransaction.verify (fun _ _ _ => true) (fun _ => []) (fun _ => [])
      { message := legacyMsgOfKeys [10, 20], message_hash := 0,
        is_simple_vote_tx := false, signatures := [[1]] } = .ok () :=
  (verify_ok_iff_all_required (fun _ _ _ => true) (fun _ => []) (fun _ => [])
      { message := legacyMsgOfKeys [10, 20], message_hash := 0,
        is_simple_vote_tx := false, signatures := [[1]] }
      (by rfl) (by decide)).1.mpr
    (fun i hi => rfl)

/-- C8: `verify` checks exactly the `min(signatures.len(),
account_keys().len())` positionally zipped pairs — it succeeds iff all of
those pairs pass (so with an empty signature list it returns `Ok` regardless
of message content, and trailing signatures or keys beyond the zip length are
never checked), and its only other outcome is the signature-failure error. -/
theorem verify_checks_min_pairs
    (sv : Signature → Pubkey → List Nat → Bool)
    (sl : legacy.Message → List Nat) (s0 : v0.Message → List Nat)
    (tx : SanitizedTransaction) :
    (tx.verify sv sl s0 = .ok () ↔
      ∀ i, i < min tx.signatures.length tx.message.account_keys.length →
        sv (tx.signatures.getD i []) (tx.message.account_keys.getD i 0)
          (tx.message_data sl s0) = true)
    ∧ (tx.signatures = [] → tx.verify sv sl s0 = .ok ())
    ∧ (tx.verify sv sl s0 = .ok () ∨ tx.verify sv sl s0 = .error .SignatureFailure) := by
  obtain ⟨h1, h2⟩ := verify_any_characterization sv sl s0 tx
  refine ⟨h1, fun hnil => ?_, h2⟩
  apply h1.mpr
  intro i hi
  rw [hnil] at hi
  simp at hi

/-- Witness for C8: a concrete transaction with no signatures passes `verify`
even under an always-rejecting signature primitive. -/
theorem verify_checks_min_pairs_witness :
    SanitizedTransaction.verify (fun _ _ _ => false) (fun _ => []) (fun _ => [])
      { message := legacyMsgOfKeys [10, 20], message_hash := 0,
        is_simple_vote_tx := false, signatures := [] } = .ok () :=
  (verify_checks_min_pairs (fun _ _ _ => false) (fun _ => []) (fun _ => [])
      { message := legacyMsgOfKeys [10, 20], message_hash := 0,
        is_simple_vote_tx := false, signatures := [] }).2.1 rfl

/-- Shape of every successful `try_new`: the hash, vote flag and signatures
are stored exactly as given, and re-emission reproduces the original
signatures and the original wire message. -/
theorem try_new_ok_shape
    (tx : SanitizedVersionedTransaction) (h : Hash) (v : Bool)
    (loader : List MessageAddressTableLookup → Except TransactionError LoadedAddresses)
    (reserved : List Pubkey) (st : SanitizedTransaction)
    (hok : SanitizedTransaction.try_new tx h v loader reserved = .ok st) :
    st.message_hash = h ∧ st.is_simple_vote_tx = v ∧ st.signatures = tx.signatures
    ∧ st.to_versioned_transaction
        = { signatures := tx.signatures, message := tx.message.message } := by
  rw [SanitizedTransaction.try_new] at hok
  cases hm : tx.message.message with
  | Legacy m =>
      rw [hm] at hok
      injection hok with h1
      subst h1
      exact ⟨rfl, rfl, rfl, rfl⟩
  | V0 m =>
      rw [hm] at hok
      dsimp only at hok
      cases hl : loader m.address_table_lookups with
      | error e => rw [hl] at hok; cases hok
      | ok la =>
          rw [hl] at hok
          injection hok with h1
          subst h1
          exact ⟨rfl, rfl, rfl, rfl⟩

/-- C6: for every sanitized transaction built by `try_new` from a wire-format
transaction, `to_versioned_transaction` reproduces the original signature list
byte-identically and the original message shape (for a table-addressed
transaction, the lookup references and indices; the resolved addresses are
never serialized into the output). -/
theorem to_versioned_transaction_roundtrip
    (tx : SanitizedVersionedTransaction) (h : Hash) (v : Bool)
    (loader : List MessageAddressTableLookup → Except TransactionError LoadedAddresses)
    (reserved : List Pubkey) (st : SanitizedTransaction)
    (hok : SanitizedTransaction.try_new tx h v loader reserved = .ok st) :
    st.to_versioned_transaction
      = { signatures := tx.signatures, message := tx.message.message } :=
  (try_new_ok_shape tx h v loader reserved st hok).2.2.2

/-- A concrete table-addressed wire message with one lookup reference. -/
def v0MsgC6 : v0.Message :=
  { header :=
      { num_required_signatures := 1
        num_readonly_signed_accounts := 0
        num_readonly_unsigned_accounts := 0 }
    account_keys := [10]
    recent_blockhash := 0
    instructions := []
    address_table_lookups :=
      [{ account_key := 99, writable_indexes := [0], readonly_indexes := [1] }] }

/-- The concrete table-addressed sanitized versioned transaction for the C6
witness. -/
def svtC6 : SanitizedVersionedTransaction :=
  { signatures := [[3]], message := { message := VersionedMessage.V0 v0MsgC6 } }

/-- A concrete address loader that resolves the C6 lookup reference. -/
def loaderC6 : List MessageAddressTableLookup → Except TransactionError LoadedAddresses :=
  fun _ => .ok { writable := [20], readonly := [30] }

/-- Witness for C6: sanitizing the concrete table-addressed transaction and
re-emitting it reproduces the original signatures and the original lookup
references; the resolved addresses do not appear. -/
theorem to_versioned_transaction_roundtrip_witness :
    SanitizedTransaction.to_versioned_transaction
        { message := SanitizedMessage.V0 (v0.LoadedMessage.new v0MsgC6
            { writable := [20], readonly := [30] } [])
          message_hash := 5, is_simple_vote_tx := false, signatures := [[3]] }
      = { signatures := svtC6.signatures, message := svtC6.message.message } :=
  to_versioned_transaction_roundtrip svtC6 5 false loaderC6 []
    { message := SanitizedMessage.V0 (v0.LoadedMessage.new v0MsgC6
        { writable := [20], readonly := [30] } [])
      message_hash := 5, is_simple_vote_tx := false, signatures := [[3]] }
    rfl

/-- C7: for every successful `try_create`, an explicitly supplied vote flag is
stored verbatim (the resulting `is_simple_vote_transaction` equals it
regardless of transaction shape), and when no flag is supplied the result
equals the external vote classifier applied to the sanitized versioned
transaction. -/
theorem try_create_vote_flag
    (vc : SanitizedVersionedTransaction → Bool) (hf : VersionedMessage → Hash)
    (tx : VersionedTransaction) (mh : MessageHash) (flag : Option Bool)
    (loader : List MessageAddressTableLookup → Except TransactionError LoadedAddresses)
    (reserved : List Pubkey) (st : SanitizedTransaction)
    (hok : SanitizedTransaction.try_create vc hf tx mh flag loader reserved = .ok st) :
    (∀ b, flag = some b → st.is_simple_vote_transaction = b)
    ∧ (flag = none →
        ∃ svt, SanitizedVersionedTransaction.try_from tx = .ok svt
          ∧ st.is_simple_vote_transaction = vc svt) := by
  rw [SanitizedTransaction.try_create] at hok
  cases hf0 : SanitizedVersionedTransaction.try_from tx with
  | error e => rw [hf0] at hok; cases hok
  | ok svt =>
      rw [hf0] at hok
      dsimp only at hok
      obtain ⟨_, hv, _, _⟩ := try_new_ok_shape svt _ _ loader reserved st hok
      constructor
      · intro b hb
        rw [SanitizedTransaction.is_simple_vote_transaction, hv, hb]
        rfl
      · intro hn
        refine ⟨svt, rfl, ?_⟩
        rw [SanitizedTransaction.is_simple_vote_transaction, hv, hn]
        rfl

/-- The concrete legacy wire message for the C7 witness. -/
def legacyMsgC7 : legacy.Message :=
  { header :=
      { num_required_signatures := 1
        num_readonly_signed_accounts := 0
        num_readonly_unsigned_accounts := 0 }
    account_keys := [10, 20]
    recent_blockhash := 0
    instructions := [] }

/-- The concrete un-sanitized wire transaction for the C7 witness. -/
def vtxC7 : VersionedTransaction :=
  { signatures := [[2]], message := VersionedMessage.Legacy legacyMsgC7 }

/-- Witness for C7: constructing the concrete legacy transaction with no
supplied vote flag yields the classifier's verdict (an always-true classifier
here). -/
theorem try_create_vote_flag_witness :
    ∃ svt, SanitizedVersionedTransaction.try_from vtxC7 = .ok svt
      ∧ SanitizedTransaction.is_simple_vote_transaction
          { message := SanitizedMessage.Legacy (LegacyMessage.new legacyMsgC7 [])
            message_hash := 9, is_simple_vote_tx := true, signatures := [[2]] }
        = (fun _ => true) svt :=
  (try_create_vote_flag (fun _ => true) (fun _ => 0) vtxC7 (MessageHash.Precomputed 9)
      none (fun _ => .error (.AddressLookupError 0)) []
      { message := SanitizedMessage.Legacy (LegacyMessage.new legacyMsgC7 [])
        message_hash := 9, is_simple_vote_tx := true, signatures := [[2]] }
      rfl).2 rfl

/-- C9: for every sanitized transaction satisfying the construction invariant
(`signatures.len() = num_required_signatures ≥ 1`), the first-signature
accessor is defined: the index-0 access is in bounds and returns the first
element of the signature list. -/
theorem signature_first
    (tx : SanitizedTransaction)
    (hlen : tx.signatures.length = tx.message.header.num_required_signatures)
    (hpos : 1 ≤ tx.message.header.num_required_signatures) :
    ∃ s rest, tx.signatures = s :: rest ∧ tx.signature = some s := by
  cases hs : tx.signatures with
  | nil => rw [hs] at hlen; simp at hlen; omega
  | cons s rest =>
      refine ⟨s, rest, rfl, ?_⟩
      rw [SanitizedTransaction.signature, hs]
      simp

/-- Witness for C9: the accessor on a concrete one-signature transaction
returns that signature. -/
theorem signature_first_witness :
    ∃ s rest, ([[4]] : List Signature) = s :: rest
      ∧ SanitizedTransaction.signature
          { message := legacyMsgOfKeys [10, 20], message_hash := 0,
            is_simple_vote_tx := false, signatures := [[4]] } = some s :=
  signature_first
    { message := legacyMsgOfKeys [10, 20], message_hash := 0,
      is_simple_vote_tx := false, signatures := [[4]] }
    (by rfl) (by decide)

/-- C10: a sanitized transaction is immutable after construction — for every
transaction produced by `try_new`, the hash, signature-list and vote-flag
accessors return exactly the values fixed at construction (the hash is never
recomputed), and re-emission reads back the same stored signatures.  Every
operation of the embedding is a pure function of the transaction value, so no
operation mutates its four fields. -/
theorem immutable_after_construction
    (tx : SanitizedVersionedTransaction) (h : Hash) (v : Bool)
    (loader : List MessageAddressTableLookup → Except TransactionError LoadedAddresses)
    (reserved : List Pubkey) (st : SanitizedTransaction)
    (hok : SanitizedTransaction.try_new tx h v loader reserved = .ok st) :
    st.message_hash = h
    ∧ st.signatures = tx.signatures
    ∧ SanitizedTransaction.is_simple_vote_transaction st = v
    ∧ st.to_versioned_transaction.signatures = st.signatures := by
  obtain ⟨h1, h2, h3, h4⟩ := try_new_ok_shape tx h v loader reserved st hok
  refine ⟨h1, h3, ?_, ?_⟩
  · rw [SanitizedTransaction.is_simple_vote_transaction]
    exact h2
  · rw [h4, h3]

/-- Witness for C10: construction of a concrete legacy transaction stores its
hash, signatures and vote flag verbatim. -/
theorem immutable_after_construction_witness :
    SanitizedTransaction.message_hash
        { message := SanitizedMessage.Legacy (LegacyMessage.new legacyMsgC7 [])
          message_hash := 9, is_simple_vote_tx := false, signatures := [[2]] } = 9
    ∧ SanitizedTransaction.signatures
        { message := SanitizedMessage.Legacy (LegacyMessage.new legacyMsgC7 [])
          message_hash := 9, is_simple_vote_tx := false, signatures := [[2]] }
        = [[2]]
    ∧ SanitizedTransaction.is_simple_vote_transaction
        { message := SanitizedMessage.Legacy (LegacyMessage.new legacyMsgC7 [])
          message_hash := 9, is_simple_vote_tx := false, signatures := [[2]] }
        = false
    ∧ (SanitizedTransaction.to_versioned_transaction
        { message := SanitizedMessage.Legacy (LegacyMessage.new legacyMsgC7 [])
          message_hash := 9, is_simple_vote_tx := false, signatures := [[2]] }).signatures
        = [[2]] := by
  have h := immutable_after_construction
    { signatures := [[2]], message := { message := VersionedMessage.Legacy legacyMsgC7 } }
    9 false (fun _ => .error (.AddressLookupError 0)) []
    { message := SanitizedMessage.Legacy (LegacyMessage.new legacyMsgC7 [])
      message_hash := 9, is_simple_vote_tx := false, signatures := [[2]] }
    rfl
  exact ⟨h.1, h.2.1, h.2.2.1, by rw [h.2.2.2, h.2.1]⟩

end SolanaTx
